import Mathlib

/-!
Verification development for the mcp-nes repository.

The repository embeds an NES emulation core (src/nes-core/, derived from
jsnes) behind an MCP tool layer.  The tool layer, HTTP routes and the
NESEmulator wrapper are embedded here directly from the TypeScript source
(src/tools.ts, src/ui.ts, src/nes.ts, src/types.ts).  The emulation core
itself (cpu.js, ppu.js, papu.js, controller.js, mappers.js, rom.js, nes.js)
is not part of the available source tree; the definitions concerning it are
modelled from the specification's own description of the core (PPU
scanline/dot state machine, frame scheduler, controller shift register,
cartridge header parsing) and are marked as such in their doc comments.
-/

/-! ### PPU timing state machine -/

/-- Modelled from the spec: the PPU timing state (src/nes-core/ppu.js is not
in the source tree).  Scanline index 0-261, dot index 0-340 within the
scanline, and the VBlank status flag. -/
structure PPUState where
  scanline : Nat
  dot : Nat
  vblank : Bool
  deriving DecidableEq

/-- Modelled from the spec: power-up PPU timing state, at scanline 0 dot 0
with VBlank clear. -/
def ppuInit : PPUState := { scanline := 0, dot := 0, vblank := false }

/-- Modelled from the spec: one PPU dot of the timing state machine.
VBlank is set entering scanline 241 and cleared at scanline 261 dot 1;
dot 256 of scanline 261 is the authoritative frame boundary, resetting the
counters to (0,0).  Returns the new state and whether the frame just
completed. -/
def ppuTick (s : PPUState) : PPUState × Bool :=
  if s.scanline = 261 ∧ s.dot = 255 then
    ({ scanline := 0, dot := 0, vblank := s.vblank }, true)
  else if s.dot = 340 then
    ({ scanline := s.scanline + 1, dot := 0,
       vblank := if s.scanline + 1 = 241 then true else s.vblank }, false)
  else
    ({ scanline := s.scanline, dot := s.dot + 1,
       vblank := if s.scanline = 261 ∧ s.dot = 0 then false else s.vblank }, false)

/-- Number of PPU dots in one frame: scanlines 0-260 of 341 dots each, plus
dots 0-255 of the pre-render scanline 261 (the frame boundary is dot 256 of
scanline 261), covering 262 scanline values in total. -/
def dotsPerFrame : Nat := 261 * 341 + 256

/-- Linear position of a PPU timing state within the frame. -/
def phase (s : PPUState) : Nat := s.scanline * 341 + s.dot

/-- Invariant of reachable PPU timing states: counter bounds, and the VBlank
flag is set exactly from entering scanline 241 up to (and including)
scanline 261 dot 0, i.e. it is cleared at scanline 261 dot 1. -/
def PPUInv (s : PPUState) : Prop :=
  s.scanline ≤ 261 ∧ s.dot ≤ 340 ∧ (s.scanline = 261 → s.dot ≤ 255) ∧
    (s.vblank = true ↔ (241 ≤ s.scanline ∧ (s.scanline < 261 ∨ s.dot = 0)))

/-- Iterate single PPU dots. -/
def ppuRunN : Nat → PPUState → PPUState
  | 0, s => s
  | n + 1, s => ppuRunN n (ppuTick s).1

/-- Count the frame-complete signals raised during the first `n` dots. -/
def ppuFrames : Nat → PPUState → Nat
  | 0, _ => 0
  | n + 1, s => (if (ppuTick s).2 then 1 else 0) + ppuFrames n (ppuTick s).1

/-- Advance the PPU by `n` dots, also reporting whether any of those dots
signalled frame completion (used by the frame scheduler, which feeds the
PPU 3 dots per CPU cycle). -/
def ppuRun : Nat → PPUState → PPUState × Bool
  | 0, s => (s, false)
  | n + 1, s =>
    let t := ppuTick s
    let r := ppuRun n t.1
    (r.1, t.2 || r.2)

/-! ### PPU video output -/

/-- Modelled from the spec: the fixed 64-entry hardware palette resolving
indexed colors to RGB values (src/nes-core/ppu.js is not in the source
tree); a fixed table, with no per-call palette negotiation. -/
def nesPaletteTable : List Nat :=
  [0x525252, 0xB40000, 0xA00000, 0xB1003D, 0x740069, 0x00005B, 0x00005F, 0x001840,
   0x002F10, 0x084A08, 0x006700, 0x124200, 0x6D2800, 0x000000, 0x000000, 0x000000,
   0xC4D5E7, 0xFF4000, 0xDC0E22, 0xFF476B, 0xD7009F, 0x680AD7, 0x0019BC, 0x0054B1,
   0x006A5B, 0x008C03, 0x00AB00, 0x2C8800, 0xA47200, 0x000000, 0x000000, 0x000000,
   0xF8F8F8, 0xFFAB3C, 0xFF7981, 0xFF5BC5, 0xFF48F2, 0xDF49FF, 0x476DFF, 0x00B4F7,
   0x00E0FF, 0x00E375, 0x03F42B, 0x78B82E, 0xE5E218, 0x787878, 0x000000, 0x000000,
   0xFFFFFF, 0xFFF2BE, 0xF8B8B8, 0xF8B8D8, 0xFFB6FF, 0xFFC3FF, 0xC7D1FF, 0x9ADAFF,
   0x88EDF8, 0x83FFDD, 0xB8F8B8, 0xF5F8AC, 0xFFFFB0, 0xF8D8F8, 0x000000, 0x000000]

/-- Look up an indexed color in the fixed hardware palette. -/
def nesPalette (c : Fin 64) : Nat := nesPaletteTable.getD c.val 0

/-- Modelled from the spec: the video side of the PPU.  Palette RAM holds 32
entries of hardware color indices; `pixels` is the composited palette-RAM
index for each of the 256×240 pixels of the current frame (the
nametable/attribute/pattern and sprite compositing that produces it lives in
the missing src/nes-core/ppu.js). -/
structure PPUVideo where
  paletteRAM : Fin 32 → Fin 64
  pixels : Fin 61440 → Fin 32

/-- Complete PPU state: timing machine plus video state. -/
structure PPUFull where
  timing : PPUState
  video : PPUVideo

/-- Power-up video state. -/
def ppuVideoInit : PPUVideo := { paletteRAM := fun _ => 0, pixels := fun _ => 0 }

/-- Power-up PPU state. -/
def ppuFullInit : PPUFull := { timing := ppuInit, video := ppuVideoInit }

/-- Modelled from the spec: the framebuffer of a completed frame — one
indexed color per pixel, resolved through the 32-entry palette RAM and the
fixed hardware palette, for all 256×240 = 61440 pixels. -/
def renderFrame (v : PPUVideo) : List Nat :=
  (List.finRange 61440).map fun i => nesPalette (v.paletteRAM (v.pixels i))

/-! ### Controller shift register -/

/-- Modelled from the spec: one controller latch (src/nes-core/controller.js
is not in the source tree): an 8-bit pressed-button mask in hardware order
A, B, Select, Start, Up, Down, Left, Right, and the shift-register read
index. -/
structure Controller where
  buttons : Fin 8 → Bool
  index : Nat

/-- Power-up controller state: nothing pressed, index 0. -/
def ctrlInit : Controller := { buttons := fun _ => false, index := 0 }

/-- Modelled from the spec: a strobe write resets the shift index to 0. -/
def ctrlStrobe (c : Controller) : Controller := { c with index := 0 }

/-- Modelled from the spec: a read returns the next button's bit in hardware
order and advances the index; once all 8 bits are exhausted, further reads
repeat the last bit without advancing. -/
def ctrlRead (c : Controller) : Bool × Controller :=
  if h : c.index < 8 then (c.buttons ⟨c.index, h⟩, { c with index := c.index + 1 })
  else (c.buttons 7, c)

/-- Perform `n` consecutive controller reads, collecting the returned bits. -/
def ctrlReadN : Nat → Controller → List Bool × Controller
  | 0, c => ([], c)
  | n + 1, c =>
    let r := ctrlRead c
    let rest := ctrlReadN n r.2
    (r.1 :: rest.1, rest.2)

/-- Button mask with only A (bit 0) and Start (bit 3) pressed. -/
def aStartButtons : Fin 8 → Bool := fun i => i.val == 0 || i.val == 3

/-! ### Cartridge loading -/

/-- Modelled from the spec: an immutable parsed cartridge — PRG/CHR bank
counts, mirroring mode, mapper id, and the ROM data (src/nes-core/rom.js is
not in the source tree). -/
structure Cartridge where
  prgBanks : Nat
  chrBanks : Nat
  mirroring : Bool
  mapper : Nat
  prg : List Nat
  chr : List Nat
  deriving DecidableEq

/-- Modelled from the spec: the load-time failure taxonomy — bad magic,
truncated image, unsupported mapper id. -/
inductive InvalidCartridge where
  | badMagic
  | truncated
  | unsupportedMapper (id : Nat)
  deriving DecidableEq

/-- The iNES magic bytes. -/
def inesMagic : List Nat := [78, 69, 83, 26]

/-- Modelled from the spec: the mapper id is split across header bytes 6 and
7 — the high nibble of byte 6 is its low nibble, the high nibble of byte 7
its high nibble. -/
def headerMapper (bytes : List Nat) : Nat :=
  bytes.getD 6 0 / 16 + bytes.getD 7 0 / 16 * 16

/-- Modelled from the spec: the set of mapper ids the core supports (the
spec does not enumerate them; any fixed finite set exhibits the
fail-fast-on-unsupported behavior). -/
def supportedMappers : List Nat := [0, 1, 2, 3, 4, 7]

/-- Modelled from the spec: parse a cartridge image — check the magic bytes,
read PRG/CHR bank counts, the mirroring flag and the split mapper id, and
fail with InvalidCartridge on bad magic, a truncated image, or an
unsupported mapper id, all synchronously at load time. -/
def loadCartridge (bytes : List Nat) : Except InvalidCartridge Cartridge :=
  if bytes.length < 16 then Except.error InvalidCartridge.truncated
  else if bytes.take 4 ≠ inesMagic then Except.error InvalidCartridge.badMagic
  else if headerMapper bytes ∉ supportedMappers then
    Except.error (InvalidCartridge.unsupportedMapper (headerMapper bytes))
  else if bytes.length < 16 + bytes.getD 4 0 * 16384 + bytes.getD 5 0 * 8192 then
    Except.error InvalidCartridge.truncated
  else
    Except.ok
      { prgBanks := bytes.getD 4 0, chrBanks := bytes.getD 5 0,
        mirroring := bytes.getD 6 0 % 2 = 1, mapper := headerMapper bytes,
        prg := ((bytes.drop 16).take (bytes.getD 4 0 * 16384)),
        chr := ((bytes.drop (16 + bytes.getD 4 0 * 16384)).take (bytes.getD 5 0 * 8192)) }

/-! ### Frame scheduler and session -/

/-- Modelled from the spec: the deterministic step functions of the
components whose code is not in the source tree (src/nes-core/cpu.js,
papu.js, mappers.js).  The scheduler is stated over arbitrary such
components: `cpuStep` executes one instruction and reports its cycle cost,
`setNMI`/`setIRQ` set the CPU interrupt-pending flags, `apuStep` advances
the APU by the elapsed CPU cycles and emits audio samples, and `mapperTick`
advances mapper-internal counters, reporting an IRQ request. -/
structure CoreOps (σc σa σm : Type) where
  cpuInit : Cartridge → σc
  cpuStep : σc → σc × Nat
  setNMI : σc → σc
  setIRQ : σc → σc
  apuInit : Cartridge → σa
  apuStep : Nat → σa → σa × List Int
  mapperInit : Cartridge → σm
  mapperTick : Nat → σm → σm × Bool

/-- Modelled from the spec: an emulation session owning the cartridge and
one instance of each component. -/
structure Session (σc σa σm : Type) where
  cart : Cartridge
  cpu : σc
  apu : σa
  mapper : σm
  ppu : PPUFull
  ctrl1 : Controller
  ctrl2 : Controller

/-- Modelled from the spec: create a session from a parsed cartridge with
every component at its power-up state. -/
def loadSession {σc σa σm : Type} (ops : CoreOps σc σa σm) (cart : Cartridge) :
    Session σc σa σm :=
  { cart := cart, cpu := ops.cpuInit cart, apu := ops.apuInit cart,
    mapper := ops.mapperInit cart, ppu := ppuFullInit,
    ctrl1 := ctrlInit, ctrl2 := ctrlInit }

/-- Result of one scheduler iteration. -/
structure SchedOut (σc σa σm : Type) where
  s : Session σc σa σm
  samples : List Int
  frameDone : Bool

/-- Modelled from the spec: one iteration of the frame scheduler loop —
execute one CPU instruction, feed the consumed cycles to the PPU at the
fixed ratio of 3 PPU dots per CPU cycle and to the APU and mapper, and set
the CPU NMI-pending flag when the PPU signals VBlank entry and the
IRQ-pending flag when the mapper signals an IRQ. -/
def schedStep {σc σa σm : Type} (ops : CoreOps σc σa σm) (s : Session σc σa σm) :
    SchedOut σc σa σm :=
  let stepped := ops.cpuStep s.cpu
  let pr := ppuRun (3 * stepped.2) s.ppu.timing
  let ar := ops.apuStep stepped.2 s.apu
  let mr := ops.mapperTick stepped.2 s.mapper
  let cpu2 := if pr.1.vblank = true ∧ s.ppu.timing.vblank = false
    then ops.setNMI stepped.1 else stepped.1
  let cpu3 := if mr.2 = true then ops.setIRQ cpu2 else cpu2
  { s := { cart := s.cart, cpu := cpu3, apu := ar.1, mapper := mr.1,
           ppu := { timing := pr.1, video := s.ppu.video },
           ctrl1 := s.ctrl1, ctrl2 := s.ctrl2 },
    samples := ar.2, frameDone := pr.2 }

/-- Modelled from the spec: the frame scheduler loop — repeat scheduler
iterations until the PPU signals frame completion, returning the resulting
session, the completed framebuffer, and the audio samples pushed during the
frame.  `fuel` bounds the number of iterations; the termination theorem
shows that `dotsPerFrame` iterations always suffice. -/
def sessStepFrameAux {σc σa σm : Type} (ops : CoreOps σc σa σm) :
    Nat → Session σc σa σm → List Int →
    Option (Session σc σa σm × List Nat × List Int)
  | 0, _, _ => none
  | fuel + 1, s, acc =>
    let r := schedStep ops s
    if r.frameDone then some (r.s, renderFrame r.s.ppu.video, acc ++ r.samples)
    else sessStepFrameAux ops fuel r.s (acc ++ r.samples)

/-- Modelled from the spec: `stepFrame()` — run the scheduler loop until the
PPU completes the frame. -/
def sessStepFrame {σc σa σm : Type} (ops : CoreOps σc σa σm)
    (s : Session σc σa σm) :
    Option (Session σc σa σm × List Nat × List Int) :=
  sessStepFrameAux ops dotsPerFrame s []

/-- Run `n` whole frames, discarding the per-frame outputs. -/
def runFrames {σc σa σm : Type} (ops : CoreOps σc σa σm) :
    Nat → Session σc σa σm → Option (Session σc σa σm)
  | 0, s => some s
  | n + 1, s =>
    match sessStepFrame ops s with
    | some r => runFrames ops n r.1
    | none => none

/-- Modelled from the spec: `session.reset()` reinitializes the CPU, PPU,
APU, mapper banks and controllers to their power-up defaults while
preserving the loaded cartridge. -/
def sessionReset {σc σa σm : Type} (ops : CoreOps σc σa σm)
    (s : Session σc σa σm) : Session σc σa σm :=
  loadSession ops s.cart

/-- Modelled from the spec: `session.setButton(player, button, pressed)`
updates the pressed-button mask of the selected player's controller. -/
def applySetButton {σc σa σm : Type} (p : Bool) (i : Fin 8) (v : Bool)
    (s : Session σc σa σm) : Session σc σa σm :=
  if p then
    { s with ctrl1 := { s.ctrl1 with buttons := Function.update s.ctrl1.buttons i v } }
  else
    { s with ctrl2 := { s.ctrl2 with buttons := Function.update s.ctrl2.buttons i v } }

/-- An externally visible session command: a `setButton` call or a
`stepFrame()` call. -/
inductive SCmd where
  | setButton (p : Bool) (i : Fin 8) (v : Bool)
  | stepFrame

/-- Small-step semantics of one session command, recording the framebuffers
and audio samples it produces. -/
inductive SessStep {σc σa σm : Type} (ops : CoreOps σc σa σm) :
    Session σc σa σm → SCmd → Session σc σa σm →
    List (List Nat) → List Int → Prop where
  | setBtn : ∀ (s : Session σc σa σm) (p : Bool) (i : Fin 8) (v : Bool),
      SessStep ops s (SCmd.setButton p i v) (applySetButton p i v s) [] []
  | frame : ∀ (s s' : Session σc σa σm) (fb : List Nat) (aud : List Int),
      sessStepFrame ops s = some (s', fb, aud) →
      SessStep ops s SCmd.stepFrame s' [fb] aud

/-- A run of a session through a list of commands, concatenating the
framebuffers and audio samples produced along the way. -/
inductive SessRun {σc σa σm : Type} (ops : CoreOps σc σa σm) :
    Session σc σa σm → List SCmd → List (List Nat) → List Int → Prop where
  | nil : ∀ s : Session σc σa σm, SessRun ops s [] [] []
  | cons : ∀ (s s' : Session σc σa σm) (c : SCmd) (cs : List SCmd)
      (fb : List (List Nat)) (fbs : List (List Nat))
      (aud : List Int) (auds : List Int),
      SessStep ops s c s' fb aud → SessRun ops s' cs fbs auds →
      SessRun ops s (c :: cs) (fb ++ fbs) (aud ++ auds)

/-! ### NESEmulator wrapper (embedded from src/nes.ts) -/

/-- The NES controller buttons (src/types.ts, enum NESButton). -/
inductive NESButton where
  | UP
  | DOWN
  | LEFT
  | RIGHT
  | A
  | B
  | START
  | SELECT
  deriving DecidableEq

/-- Modelled from the spec: the jsnes Controller button constants in
hardware order (src/nes-core/controller.js is not in the source tree):
A, B, Select, Start, Up, Down, Left, Right. -/
def buttonIndex : NESButton → Fin 8
  | NESButton.A => 0
  | NESButton.B => 1
  | NESButton.SELECT => 2
  | NESButton.START => 3
  | NESButton.UP => 4
  | NESButton.DOWN => 5
  | NESButton.LEFT => 6
  | NESButton.RIGHT => 7

/-- Modelled from the spec: the observable surface of the jsnes core object
held by the NESEmulator wrapper — a frame counter, the held-button mask of
controller 1, and a log recording, for each emulated frame, the button mask
that was held while it ran (src/nes-core/nes.js is not in the source
tree; only the frame/button accounting matters to the wrapper claims). -/
structure JsnesCore where
  frames : Nat
  held : Fin 8 → Bool
  frameLog : List (Fin 8 → Bool)

/-- Core at power-up: no frames run, nothing held. -/
def coreInit : JsnesCore := { frames := 0, held := fun _ => false, frameLog := [] }

/-- nes.buttonDown(1, b): mark the button held. -/
def coreButtonDown (b : NESButton) (s : JsnesCore) : JsnesCore :=
  { s with held := Function.update s.held (buttonIndex b) true }

/-- nes.buttonUp(1, b): mark the button released. -/
def coreButtonUp (b : NESButton) (s : JsnesCore) : JsnesCore :=
  { s with held := Function.update s.held (buttonIndex b) false }

/-- nes.frame(): emulate one frame under the currently held buttons. -/
def coreFrame (s : JsnesCore) : JsnesCore :=
  { frames := s.frames + 1, held := s.held, frameLog := s.frameLog ++ [s.held] }

/-- Run nes.frame() `n` times. -/
def coreFramesN : Nat → JsnesCore → JsnesCore
  | 0, s => s
  | n + 1, s => coreFramesN n (coreFrame s)

/-- The NESEmulator wrapper state (src/nes.ts): the jsnes core, whether a
ROM is loaded, the ROM path, and the captured frame buffer.  The rendering
canvas is an external graphics object and is not modelled. -/
structure NESEmulator where
  nes : JsnesCore
  romLoaded : Bool
  romPath : Option String
  frameBuffer : List Nat

/-- The error message thrown by NESEmulator methods when no ROM is
loaded (src/nes.ts). -/
def noRomMsg : String := "No ROM loaded"

/-- NESEmulator.pressButton (src/nes.ts): throw when no ROM is loaded;
otherwise press the button, run `durationFrames` frames holding it, release
it, and run one extra frame. -/
def NESEmulator.pressButton (e : NESEmulator) (button : NESButton)
    (durationFrames : Nat) : Except String NESEmulator :=
  if e.romLoaded = false then Except.error noRomMsg
  else Except.ok
    { e with nes :=
        coreFrame (coreButtonUp button
          (coreFramesN durationFrames (coreButtonDown button e.nes))) }

/-- NESEmulator.doFrame (src/nes.ts): throw when no ROM is loaded;
otherwise advance one frame. -/
def NESEmulator.doFrame (e : NESEmulator) : Except String NESEmulator :=
  if e.romLoaded = false then Except.error noRomMsg
  else Except.ok { e with nes := coreFrame e.nes }

/-- The pixel conversion loop shared by getScreenAsBase64 (src/nes.ts) and
the browser onFrame callback (src/ui.ts): for each 0xBBGGRR framebuffer
word emit R (low byte), G (middle byte), B (high byte) and alpha 0xff. -/
def screenRGBA : List Nat → List Nat
  | [] => []
  | c :: rest => c % 256 :: c / 256 % 256 :: c / 65536 % 256 :: 255 :: screenRGBA rest

/-- NESEmulator.getScreenAsBase64 (src/nes.ts): throw when no ROM is
loaded; otherwise convert the captured framebuffer to RGBA pixel data (the
subsequent PNG/base64 encoding is external and not modelled). -/
def NESEmulator.getScreenAsBase64 (e : NESEmulator) : Except String (List Nat) :=
  if e.romLoaded = false then Except.error noRomMsg
  else Except.ok (screenRGBA e.frameBuffer)

/-! ### HTTP /api/tool handler (embedded from src/ui.ts) -/

/-- Parameters of a /api/tool request body; absent JSON fields are `none`. -/
structure ApiParams where
  romPath : Option String
  durationFrames : Option Int

/-- Outcome of the /api/tool handler: an error response with an HTTP status
and message, or a success payload. -/
inductive ApiResult where
  | err : Nat → String → ApiResult
  | okScreen : List Nat → ApiResult
  | okLoaded : ApiResult
  deriving DecidableEq

/-- HTTP status of an /api/tool outcome. -/
def ApiResult.status : ApiResult → Nat
  | ApiResult.err s _ => s
  | ApiResult.okScreen _ => 200
  | ApiResult.okLoaded => 200

/-- JavaScript truthiness test used by `if (!tool)`: absent or empty
strings are falsy. -/
def jsFalsy : Option String → Bool
  | none => true
  | some s => s.isEmpty

/-- The name of the only tool allowed without a loaded ROM. -/
def loadRomName : String := "load_rom"

/-- Error message for a missing tool name (src/ui.ts). -/
def toolRequiredMsg : String := "Tool name is required"

/-- The valid button names accepted by the press_* tools (src/types.ts). -/
def buttonNames : List String :=
  ["UP", "DOWN", "LEFT", "RIGHT", "A", "B", "START", "SELECT"]

/-- The press_ tool name pattern tested by the handler (src/ui.ts). -/
def pressPre : String := "press_"

/-- Dispatch of the /api/tool switch statement once the guards have passed
(src/ui.ts, apiToolHandler).  The delegated emulatorService calls are
represented by their response payloads (src/emulatorService.ts is not in
the source tree). -/
def apiDispatch (svc : NESEmulator) (t : String) (params : ApiParams) : ApiResult :=
  match t with
  | "get_screen" => ApiResult.okScreen (screenRGBA svc.frameBuffer)
  | "load_rom" =>
    match params.romPath with
    | none => ApiResult.err 400 "ROM path is required"
    | some _ => ApiResult.okLoaded
  | "wait_frames" =>
    let d := params.durationFrames.getD 100
    if d ≤ 0 then ApiResult.err 400 "Invalid duration_frames"
    else ApiResult.okScreen (screenRGBA svc.frameBuffer)
  | other =>
    if other.startsWith pressPre then
      let bn := (other.drop 6).toUpper
      if buttonNames.contains bn then
        let d := params.durationFrames.getD 25
        if d ≤ 0 then ApiResult.err 400 "Invalid duration_frames for press"
        else ApiResult.okScreen (screenRGBA svc.frameBuffer)
      else ApiResult.err 400 ("Invalid button: " ++ bn)
    else ApiResult.err 400 ("Unknown tool: " ++ other)

/-- The /api/tool request handler (src/ui.ts, apiToolHandler): reject a
missing tool name with 400, reject any tool other than load_rom with 400
while no ROM is loaded, and otherwise dispatch. -/
def apiToolHandler (svc : NESEmulator) (tool : Option String)
    (params : ApiParams) : ApiResult :=
  match tool with
  | none => ApiResult.err 400 toolRequiredMsg
  | some t =>
    if t.isEmpty then ApiResult.err 400 toolRequiredMsg
    else if svc.romLoaded = false ∧ t ≠ loadRomName then ApiResult.err 400 noRomMsg
    else apiDispatch svc t params

/-! ### Concrete instances used by the witnesses -/

/-- Trivial component instantiation of the scheduler: unit component states
and a CPU whose every instruction costs two cycles. -/
def ops0 : CoreOps Unit Unit Unit :=
  { cpuInit := fun _ => (), cpuStep := fun _ => ((), 2),
    setNMI := fun _ => (), setIRQ := fun _ => (),
    apuInit := fun _ => (), apuStep := fun _ _ => ((), []),
    mapperInit := fun _ => (), mapperTick := fun _ _ => ((), false) }

/-- A minimal valid cartridge value. -/
def cart0 : Cartridge :=
  { prgBanks := 0, chrBanks := 0, mirroring := false, mapper := 0,
    prg := [], chr := [] }

/-- A 16-byte cartridge image with valid magic, zero banks and mapper 0. -/
def goodBytes : List Nat := [78, 69, 83, 26, 0, 0, 0, 0, 0, 0, 0, 0, 0, 0, 0, 0]

/-- The cartridge that `goodBytes` parses to. -/
def goodCart : Cartridge :=
  { prgBanks := 0, chrBanks := 0, mirroring := false, mapper := 0,
    prg := [], chr := [] }

/-- A wrapper state with a ROM loaded and a fresh core. -/
def emuLoaded : NESEmulator :=
  { nes := coreInit, romLoaded := true, romPath := none, frameBuffer := [] }

/-- A wrapper state with no ROM loaded. -/
def emuNoRom : NESEmulator :=
  { nes := coreInit, romLoaded := false, romPath := none, frameBuffer := [] }

/-- Empty /api/tool parameters. -/
def params0 : ApiParams := { romPath := none, durationFrames := none }

/-! ### PPU timing lemmas -/

theorem ppuTick_inv (s : PPUState) (h : PPUInv s) : PPUInv (ppuTick s).1 := by
  obtain ⟨h1, h2, h3, h4⟩ := h
  cases s with
  | mk sl d vb =>
    simp only at h1 h2 h3 h4
    unfold PPUInv ppuTick
    cases vb <;> simp only [Bool.false_eq_true, false_iff, true_iff] at h4 <;>
      split_ifs <;> simp at * <;> omega

theorem ppuTick_phase (s : PPUState) (h : PPUInv s) :
    phase (ppuTick s).1 = (phase s + 1) % dotsPerFrame ∧
    ((ppuTick s).2 = true ↔ phase s = dotsPerFrame - 1) := by
  obtain ⟨h1, h2, h3, _⟩ := h
  cases s with
  | mk sl d vb =>
    simp only at h1 h2 h3
    unfold ppuTick phase dotsPerFrame
    split_ifs <;> simp at * <;> omega

theorem phase_lt (s : PPUState) (h : PPUInv s) : phase s < dotsPerFrame := by
  obtain ⟨h1, h2, h3, _⟩ := h
  unfold phase dotsPerFrame
  omega

theorem ppuInit_inv : PPUInv ppuInit := by
  unfold PPUInv ppuInit
  simp

theorem ppuRunN_inv (n : Nat) : ∀ s : PPUState, PPUInv s → PPUInv (ppuRunN n s) := by
  induction n with
  | zero => intro s h; exact h
  | succ n ih => intro s h; exact ih (ppuTick s).1 (ppuTick_inv s h)

theorem ppuRunN_phase (n : Nat) : ∀ s : PPUState, PPUInv s →
    phase (ppuRunN n s) = (phase s + n) % dotsPerFrame := by
  induction n with
  | zero =>
    intro s h
    have := phase_lt s h
    simp [ppuRunN, Nat.mod_eq_of_lt this]
  | succ n ih =>
    intro s h
    have ht := ppuTick_phase s h
    have h2 := ih (ppuTick s).1 (ppuTick_inv s h)
    rw [ppuRunN, h2, ht.1]
    unfold dotsPerFrame at *
    omega

theorem ppuFrames_eq (n : Nat) : ∀ s : PPUState, PPUInv s →
    ppuFrames n s = (phase s + n) / dotsPerFrame := by
  induction n with
  | zero =>
    intro s h
    have := phase_lt s h
    simp [ppuFrames, Nat.div_eq_of_lt this]
  | succ n ih =>
    intro s h
    have ht := ppuTick_phase s h
    have h2 := ih (ppuTick s).1 (ppuTick_inv s h)
    have hlt := phase_lt s h
    rw [ppuFrames, h2, ht.1]
    by_cases hb : phase s = dotsPerFrame - 1
    · rw [if_pos (ht.2.mpr hb)]
      unfold dotsPerFrame at *
      omega
    · rw [if_neg (fun hc => hb (ht.2.mp hc))]
      unfold dotsPerFrame at *
      omega

theorem ppuRun_inv (n : Nat) : ∀ s : PPUState, PPUInv s → PPUInv (ppuRun n s).1 := by
  induction n with
  | zero => intro s h; exact h
  | succ n ih => intro s h; exact ih (ppuTick s).1 (ppuTick_inv s h)

theorem ppuRun_phase (n : Nat) : ∀ s : PPUState, PPUInv s →
    (ppuRun n s).2 = false →
    phase (ppuRun n s).1 = phase s + n ∧ phase s + n < dotsPerFrame := by
  induction n with
  | zero =>
    intro s h _
    refine ⟨by simp [ppuRun], ?_⟩
    have := phase_lt s h
    omega
  | succ n ih =>
    intro s h hf
    rw [ppuRun] at hf ⊢
    simp only [Bool.or_eq_false_iff] at hf
    have ht := ppuTick_phase s h
    have htf : phase s ≠ dotsPerFrame - 1 := fun hc => by
      have := ht.2.mpr hc
      rw [this] at hf
      exact absurd hf.1 (by simp)
    have hlt := phase_lt s h
    have hp1 : phase (ppuTick s).1 = phase s + 1 := by
      rw [ht.1, Nat.mod_eq_of_lt (by omega)]
    have := ih (ppuTick s).1 (ppuTick_inv s h) hf.2
    rw [hp1] at this
    exact ⟨by rw [this.1]; ring, by omega⟩

/-- C4: in every reachable PPU state (any number of dots from power-up), the
VBlank flag is set exactly from entering scanline 241 through scanline 261
dot 0 — i.e. it is set upon entering scanline 241 and cleared at scanline
261 dot 1 — the scanline counter stays within the 262 scanlines 0-261, and
exactly one frame-complete signal is produced per pass of `dotsPerFrame`
dots over those 262 scanlines. -/
theorem ppu_vblank_timing_and_frame_rate : ∀ n : Nat,
    ((ppuRunN n ppuInit).vblank = true ↔
      (241 ≤ (ppuRunN n ppuInit).scanline ∧
        ((ppuRunN n ppuInit).scanline < 261 ∨ (ppuRunN n ppuInit).dot = 0)))
    ∧ (ppuRunN n ppuInit).scanline ≤ 261
    ∧ ppuFrames n ppuInit = n / dotsPerFrame := by
  intro n
  obtain ⟨h1, h2, h3, h4⟩ := ppuRunN_inv n ppuInit ppuInit_inv
  refine ⟨h4, h1, ?_⟩
  have := ppuFrames_eq n ppuInit ppuInit_inv
  simpa [phase, ppuInit] using this

/-! ### Frame scheduler lemmas -/

theorem schedStep_timing {σc σa σm : Type} (ops : CoreOps σc σa σm)
    (s : Session σc σa σm) :
    (schedStep ops s).s.ppu.timing
      = (ppuRun (3 * (ops.cpuStep s.cpu).2) s.ppu.timing).1 := rfl

theorem schedStep_done {σc σa σm : Type} (ops : CoreOps σc σa σm)
    (s : Session σc σa σm) :
    (schedStep ops s).frameDone
      = (ppuRun (3 * (ops.cpuStep s.cpu).2) s.ppu.timing).2 := rfl

theorem schedStep_cart {σc σa σm : Type} (ops : CoreOps σc σa σm)
    (s : Session σc σa σm) : (schedStep ops s).s.cart = s.cart := rfl

theorem sessAux_total {σc σa σm : Type} (ops : CoreOps σc σa σm)
    (hc : ∀ t : σc, 1 ≤ (ops.cpuStep t).2) :
    ∀ (fuel : Nat) (s : Session σc σa σm) (acc : List Int),
    PPUInv s.ppu.timing → dotsPerFrame - phase s.ppu.timing ≤ fuel →
    ∃ s' aud, sessStepFrameAux ops fuel s acc
        = some (s', renderFrame s'.ppu.video, aud)
      ∧ PPUInv s'.ppu.timing ∧ s'.cart = s.cart := by
  intro fuel
  induction fuel with
  | zero =>
    intro s acc hInv hle
    have := phase_lt s.ppu.timing hInv
    omega
  | succ fuel ih =>
    intro s acc hInv hle
    by_cases hd : (schedStep ops s).frameDone = true
    · refine ⟨(schedStep ops s).s, acc ++ (schedStep ops s).samples, ?_, ?_, ?_⟩
      · simp only [sessStepFrameAux]
        rw [if_pos hd]
      · rw [schedStep_timing]
        exact ppuRun_inv _ _ hInv
      · exact schedStep_cart ops s
    · have hdf : (ppuRun (3 * (ops.cpuStep s.cpu).2) s.ppu.timing).2 = false := by
        rw [← schedStep_done]
        exact Bool.not_eq_true _ ▸ eq_false_of_ne_true hd
      have hrun := ppuRun_phase (3 * (ops.cpuStep s.cpu).2) s.ppu.timing hInv hdf
      have hc1 := hc s.cpu
      have hInv2 : PPUInv (schedStep ops s).s.ppu.timing := by
        rw [schedStep_timing]
        exact ppuRun_inv _ _ hInv
      have hph : phase (schedStep ops s).s.ppu.timing
          = phase s.ppu.timing + 3 * (ops.cpuStep s.cpu).2 := by
        rw [schedStep_timing]
        exact hrun.1
      obtain ⟨s', aud, heq, hinv3, hcart⟩ :=
        ih (schedStep ops s).s (acc ++ (schedStep ops s).samples) hInv2
          (by rw [hph]; have := hrun.2; omega)
      refine ⟨s', aud, ?_, hinv3, ?_⟩
      · simp only [sessStepFrameAux]
        rw [if_neg hd]
        exact heq
      · rw [hcart]
        exact schedStep_cart ops s

theorem sessStepFrame_total {σc σa σm : Type} (ops : CoreOps σc σa σm)
    (hc : ∀ t : σc, 1 ≤ (ops.cpuStep t).2) (s : Session σc σa σm)
    (hInv : PPUInv s.ppu.timing) :
    ∃ s' aud, sessStepFrame ops s = some (s', renderFrame s'.ppu.video, aud)
      ∧ PPUInv s'.ppu.timing ∧ s'.cart = s.cart :=
  sessAux_total ops hc dotsPerFrame s [] hInv (by omega)

theorem runFrames_total {σc σa σm : Type} (ops : CoreOps σc σa σm)
    (hc : ∀ t : σc, 1 ≤ (ops.cpuStep t).2) :
    ∀ (n : Nat) (s : Session σc σa σm), PPUInv s.ppu.timing →
    ∃ s', runFrames ops n s = some s' ∧ PPUInv s'.ppu.timing ∧ s'.cart = s.cart := by
  intro n
  induction n with
  | zero => intro s h; exact ⟨s, rfl, h, rfl⟩
  | succ n ih =>
    intro s h
    obtain ⟨s1, aud, heq, hinv1, hcart1⟩ := sessStepFrame_total ops hc s h
    obtain ⟨s', heq', hinv', hcart'⟩ := ih s1 hinv1
    refine ⟨s', ?_, hinv', by rw [hcart', hcart1]⟩
    rw [runFrames, heq]
    exact heq'

theorem sessAux_cart {σc σa σm : Type} (ops : CoreOps σc σa σm) :
    ∀ (fuel : Nat) (s : Session σc σa σm) (acc : List Int)
      (r : Session σc σa σm × List Nat × List Int),
    sessStepFrameAux ops fuel s acc = some r → r.1.cart = s.cart := by
  intro fuel
  induction fuel with
  | zero => intro s acc r h; exact absurd h (by simp [sessStepFrameAux])
  | succ fuel ih =>
    intro s acc r h
    simp only [sessStepFrameAux] at h
    by_cases hd : (schedStep ops s).frameDone = true
    · rw [if_pos hd] at h
      obtain rfl : r = ((schedStep ops s).s, _, _) := (Option.some.inj h).symm
      exact schedStep_cart ops s
    · rw [if_neg hd] at h
      rw [ih (schedStep ops s).s (acc ++ (schedStep ops s).samples) r h]
      exact schedStep_cart ops s

theorem runFrames_cart {σc σa σm : Type} (ops : CoreOps σc σa σm) :
    ∀ (n : Nat) (s s' : Session σc σa σm),
    runFrames ops n s = some s' → s'.cart = s.cart := by
  intro n
  induction n with
  | zero => intro s s' h; rw [Option.some.inj h]
  | succ n ih =>
    intro s s' h
    rw [runFrames] at h
    cases heq : sessStepFrame ops s with
    | none => rw [heq] at h; exact absurd h (by simp)
    | some r =>
      rw [heq] at h
      rw [ih r.1 s' h]
      exact sessAux_cart ops dotsPerFrame s [] r heq

/-- C6: the frame scheduler terminates — for any components whose CPU step
consumes at least one cycle, from any session whose PPU timing state
satisfies the reachable-state invariant, the scheduler loop (one CPU
instruction, its cycles fed to the PPU at 3 dots per cycle and to the APU
and mapper, NMI/IRQ pending flags set as signalled) reaches PPU frame
completion within `dotsPerFrame` iterations, stops there, and returns the
completed framebuffer rendered from the resulting PPU state. -/
theorem stepFrame_terminates {σc σa σm : Type} (ops : CoreOps σc σa σm)
    (hc : ∀ t : σc, 1 ≤ (ops.cpuStep t).2) (s : Session σc σa σm)
    (hInv : PPUInv s.ppu.timing) :
    ∃ s' aud, sessStepFrame ops s = some (s', renderFrame s'.ppu.video, aud)
      ∧ PPUInv s'.ppu.timing :=
  (sessStepFrame_total ops hc s hInv).imp fun _ h => h.imp fun _ h => ⟨h.1, h.2.1⟩

/-- Witness for C6 at a concrete instantiation: the trivial unit components
with a 2-cycle CPU step and a freshly loaded session. -/
theorem stepFrame_terminates_witness :
    ∃ s' aud, sessStepFrame ops0 (loadSession ops0 cart0)
        = some (s', renderFrame s'.ppu.video, aud)
      ∧ PPUInv s'.ppu.timing :=
  stepFrame_terminates ops0 (fun _ => by show (1 : Nat) ≤ 2; decide) (loadSession ops0 cart0)
    (by unfold PPUInv loadSession ppuFullInit ppuInit; simp)

theorem screenRGBA_length : ∀ l : List Nat, (screenRGBA l).length = 4 * l.length := by
  intro l
  induction l with
  | nil => rfl
  | cons c rest ih =>
    rw [screenRGBA]
    simp [ih]
    omega

/-- C1: for every loaded session and every frame count `n`, the session is
still healthy after `n` frames and the next `stepFrame()` returns a
framebuffer of exactly 256×240 = 61440 pixels, each pixel a concrete RGB
value of the fixed hardware palette; the RGBA conversion of such a buffer
(the onFrame loop) yields 4 bytes per pixel.  Since this holds for every
`n`, repeated stepFrame/getScreen calls keep succeeding. -/
theorem stepFrame_framebuffer_shape {σc σa σm : Type} (ops : CoreOps σc σa σm)
    (hc : ∀ t : σc, 1 ≤ (ops.cpuStep t).2) (cart : Cartridge) (n : Nat) :
    ∃ s s' fb aud, runFrames ops n (loadSession ops cart) = some s
      ∧ sessStepFrame ops s = some (s', fb, aud)
      ∧ fb.length = 61440
      ∧ (∀ p ∈ fb, ∃ c : Fin 64, p = nesPalette c)
      ∧ (screenRGBA fb).length = 4 * 61440 := by
  have hInv0 : PPUInv (loadSession ops cart).ppu.timing := by
    unfold loadSession ppuFullInit
    exact ppuInit_inv
  obtain ⟨s, hrun, hinv, _⟩ := runFrames_total ops hc n (loadSession ops cart) hInv0
  obtain ⟨s', aud, hstep, _, _⟩ := sessStepFrame_total ops hc s hinv
  have hlen : (renderFrame s'.ppu.video).length = 61440 := by
    unfold renderFrame
    simp
  refine ⟨s, s', renderFrame s'.ppu.video, aud, hrun, hstep, hlen, ?_, ?_⟩
  · intro p hp
    unfold renderFrame at hp
    obtain ⟨i, _, hi⟩ := List.mem_map.mp hp
    exact ⟨s'.ppu.video.paletteRAM (s'.ppu.video.pixels i), hi.symm⟩
  · rw [screenRGBA_length, hlen]


/-- Witness for C1 at a concrete instantiation: the trivial unit components
and the minimal cartridge, after zero frames. -/
theorem stepFrame_framebuffer_shape_witness :
    ∃ s s' fb aud, runFrames ops0 0 (loadSession ops0 cart0) = some s
      ∧ sessStepFrame ops0 s = some (s', fb, aud)
      ∧ fb.length = 61440
      ∧ (∀ p ∈ fb, ∃ c : Fin 64, p = nesPalette c)
      ∧ (screenRGBA fb).length = 4 * 61440 :=
  stepFrame_framebuffer_shape ops0 (fun _ => by show (1 : Nat) ≤ 2; decide) cart0 0

/-- C7: for every loaded session and every frame count `n`, calling
`reset()` after running `n` frames yields exactly the session state
observed immediately after the initial cartridge load — CPU, PPU, APU,
mapper banks and controllers back at their power-up defaults — while the
loaded cartridge itself is preserved by both the frames and the reset. -/
theorem reset_roundtrip {σc σa σm : Type} (ops : CoreOps σc σa σm)
    (cart : Cartridge) (n : Nat) (s' : Session σc σa σm)
    (h : runFrames ops n (loadSession ops cart) = some s') :
    sessionReset ops s' = loadSession ops cart
    ∧ s'.cart = cart
    ∧ ∀ t : Session σc σa σm, (sessionReset ops t).cart = t.cart := by
  have hcart : s'.cart = cart := runFrames_cart ops n (loadSession ops cart) s' h
  refine ⟨?_, hcart, fun t => rfl⟩
  unfold sessionReset
  rw [hcart]

/-- Witness for C7: zero frames on the trivial instantiation. -/
theorem reset_roundtrip_witness :
    sessionReset ops0 (loadSession ops0 cart0) = loadSession ops0 cart0
    ∧ (loadSession ops0 cart0).cart = cart0 :=
  ⟨(reset_roundtrip ops0 cart0 0 (loadSession ops0 cart0) rfl).1,
   (reset_roundtrip ops0 cart0 0 (loadSession ops0 cart0) rfl).2.1⟩

/-! ### Determinism of a session run -/

theorem sessStep_det {σc σa σm : Type} (ops : CoreOps σc σa σm)
    (s s1 s2 : Session σc σa σm) (c : SCmd)
    (f1 f2 : List (List Nat)) (a1 a2 : List Int)
    (h1 : SessStep ops s c s1 f1 a1) (h2 : SessStep ops s c s2 f2 a2) :
    s1 = s2 ∧ f1 = f2 ∧ a1 = a2 := by
  cases h1 <;> cases h2 <;> simp_all

theorem sessRun_det {σc σa σm : Type} (ops : CoreOps σc σa σm)
    (cs : List SCmd) :
    ∀ (s : Session σc σa σm) (f1 f2 : List (List Nat)) (a1 a2 : List Int),
    SessRun ops s cs f1 a1 → SessRun ops s cs f2 a2 → f1 = f2 ∧ a1 = a2 := by
  induction cs with
  | nil =>
    intro s f1 f2 a1 a2 h1 h2
    cases h1
    cases h2
    exact ⟨rfl, rfl⟩
  | cons c cs ih =>
    intro s f1 f2 a1 a2 h1 h2
    cases h1 with
    | cons _ s1 _ _ fb1 fbs1 aud1 auds1 hstep1 hrun1 =>
      cases h2 with
      | cons _ s2 _ _ fb2 fbs2 aud2 auds2 hstep2 hrun2 =>
        obtain ⟨hs, hf, ha⟩ := sessStep_det ops s s1 s2 c fb1 fb2 aud1 aud2 hstep1 hstep2
        subst hs
        obtain ⟨hfs, has⟩ := ih s1 fbs1 fbs2 auds1 auds2 hrun1 hrun2
        rw [hf, ha, hfs, has]
        exact ⟨rfl, rfl⟩

/-- C2: determinism — two independent sessions loaded from the same
cartridge, driven through the identical interleaved sequence of `setButton`
and `stepFrame()` commands, produce byte-identical framebuffer sequences
and byte-identical audio sample sequences. -/
theorem session_determinism {σc σa σm : Type} (ops : CoreOps σc σa σm)
    (cart : Cartridge) (cmds : List SCmd)
    (f1 f2 : List (List Nat)) (a1 a2 : List Int)
    (h1 : SessRun ops (loadSession ops cart) cmds f1 a1)
    (h2 : SessRun ops (loadSession ops cart) cmds f2 a2) :
    f1 = f2 ∧ a1 = a2 :=
  sessRun_det ops cmds (loadSession ops cart) f1 f2 a1 a2 h1 h2

/-- Witness for C2: a concrete one-command run on the trivial
instantiation, replayed twice. -/
theorem session_determinism_witness :
    ([] : List (List Nat)) = [] ∧ ([] : List Int) = [] :=
  session_determinism ops0 cart0 [SCmd.setButton true 0 true] [] [] [] []
    (SessRun.cons _ _ _ _ [] [] [] []
      (SessStep.setBtn (loadSession ops0 cart0) true 0 true) (SessRun.nil _))
    (SessRun.cons _ _ _ _ [] [] [] []
      (SessStep.setBtn (loadSession ops0 cart0) true 0 true) (SessRun.nil _))

/-! ### Controller lemmas -/

theorem ctrlReadN_spec : ∀ (n : Nat) (c : Controller), c.index ≤ 8 →
    (ctrlReadN n c).1
      = ((List.ofFn c.buttons).drop c.index).take n
        ++ List.replicate (n - (8 - c.index)) (c.buttons 7)
    ∧ (ctrlReadN n c).2.buttons = c.buttons
    ∧ (ctrlReadN n c).2.index = min (c.index + n) 8 := by
  intro n
  induction n with
  | zero =>
    intro c h
    refine ⟨by simp [ctrlReadN], rfl, ?_⟩
    show c.index = min (c.index + 0) 8
    omega
  | succ n ih =>
    intro c h
    by_cases hlt : c.index < 8
    · have hread : ctrlRead c
          = (c.buttons ⟨c.index, hlt⟩, { c with index := c.index + 1 }) := by
        unfold ctrlRead
        rw [dif_pos hlt]
      obtain ⟨ih1, ih2, ih3⟩ := ih { c with index := c.index + 1 } (by simp; omega)
      simp only [ctrlReadN, hread]
      refine ⟨?_, ih2, ?_⟩
      · simp only at ih1
        rw [ih1]
        have hdrop : (List.ofFn c.buttons).drop c.index
            = c.buttons ⟨c.index, hlt⟩ :: (List.ofFn c.buttons).drop (c.index + 1) := by
          rw [List.drop_eq_getElem_cons (by simpa using hlt)]
          congr 1
          rw [List.getElem_ofFn]
        rw [hdrop, List.take_succ_cons]
        have hcount : n + 1 - (8 - c.index) = n - (8 - (c.index + 1)) := by omega
        rw [hcount]
        simp
      · simp only at ih3
        rw [ih3]
        omega
    · have h8 : c.index = 8 := by omega
      have hread : ctrlRead c = (c.buttons 7, c) := by
        unfold ctrlRead
        rw [dif_neg hlt]
      obtain ⟨ih1, ih2, ih3⟩ := ih c h
      simp only [ctrlReadN, hread]
      refine ⟨?_, ih2, ?_⟩
      · rw [ih1, h8]
        rw [List.drop_eq_nil_of_le (by simp)]
        simp [List.replicate_succ]
      · rw [ih3]
        omega

/-- C5: for every controller state, a strobe write resets the shift index
to 0; `n` subsequent reads return the buttons' bits in the fixed hardware
order A, B, Select, Start, Up, Down, Left, Right, advancing the index up to
8, and once all 8 bits are exhausted every further read repeats the last
bit; in particular with only A and Start pressed, a strobe write followed
by 8 reads returns 1,0,0,1,0,0,0,0. -/
theorem controller_strobe_read_order : ∀ (c : Controller) (n : Nat),
    (ctrlStrobe c).index = 0
    ∧ (ctrlReadN n (ctrlStrobe c)).1
        = (List.ofFn c.buttons).take n ++ List.replicate (n - 8) (c.buttons 7)
    ∧ (ctrlReadN n (ctrlStrobe c)).2.index = min n 8
    ∧ (ctrlReadN 8 (ctrlStrobe { buttons := aStartButtons, index := c.index })).1
        = [true, false, false, true, false, false, false, false] := by
  intro c n
  obtain ⟨h1, _, h3⟩ := ctrlReadN_spec n (ctrlStrobe c) (by simp [ctrlStrobe])
  refine ⟨rfl, ?_, ?_, ?_⟩
  · simpa [ctrlStrobe] using h1
  · simpa [ctrlStrobe] using h3
  · show (ctrlReadN 8 { buttons := aStartButtons, index := 0 }).1 = _
    decide

/-! ### Cartridge loading lemmas -/

/-- C3: `loadCartridge` fails with an `InvalidCartridge` error exactly when
the image has bad magic bytes, is truncated (shorter than the header or
than the header-declared PRG/CHR data), or declares an unsupported mapper
id; the failure is a synchronous load-time result of the pure parser.  A
successful load returns a cartridge whose mapper id is exactly the
header's (supported) mapper id — an unsupported id is never silently
defaulted to a supported one. -/
theorem loadCartridge_error_iff : ∀ bytes : List Nat,
    ((∃ e, loadCartridge bytes = Except.error e) ↔
      (bytes.take 4 ≠ inesMagic
        ∨ headerMapper bytes ∉ supportedMappers
        ∨ bytes.length < 16 + bytes.getD 4 0 * 16384 + bytes.getD 5 0 * 8192))
    ∧ (∀ cart : Cartridge, loadCartridge bytes = Except.ok cart →
        cart.mapper = headerMapper bytes ∧ headerMapper bytes ∈ supportedMappers) := by
  intro bytes
  unfold loadCartridge
  by_cases h1 : bytes.length < 16
  · rw [if_pos h1]
    exact ⟨⟨fun _ => Or.inr (Or.inr (by omega)), fun _ => ⟨_, rfl⟩⟩,
      fun cart hc => by cases hc⟩
  · rw [if_neg h1]
    by_cases h2 : bytes.take 4 ≠ inesMagic
    · rw [if_pos h2]
      exact ⟨⟨fun _ => Or.inl h2, fun _ => ⟨_, rfl⟩⟩, fun cart hc => by cases hc⟩
    · rw [if_neg h2]
      by_cases h3 : headerMapper bytes ∉ supportedMappers
      · rw [if_pos h3]
        exact ⟨⟨fun _ => Or.inr (Or.inl h3), fun _ => ⟨_, rfl⟩⟩,
          fun cart hc => by cases hc⟩
      · rw [if_neg h3]
        by_cases h4 : bytes.length < 16 + bytes.getD 4 0 * 16384 + bytes.getD 5 0 * 8192
        · rw [if_pos h4]
          exact ⟨⟨fun _ => Or.inr (Or.inr h4), fun _ => ⟨_, rfl⟩⟩,
            fun cart hc => by cases hc⟩
        · rw [if_neg h4]
          refine ⟨⟨fun he => ?_, fun hor => ?_⟩, fun cart hc => ?_⟩
          · obtain ⟨e, he⟩ := he
            cases he
          · rcases hor with h | h | h
            · exact absurd h h2
            · exact absurd h h3
            · exact absurd h h4
          · obtain rfl : _ = cart := Except.ok.inj hc
            exact ⟨rfl, not_not.mp h3⟩

/-- Witness for C3: a concrete 16-byte image with valid magic, zero banks
and mapper 0 loads successfully and keeps the header's mapper id. -/
theorem loadCartridge_error_iff_witness :
    loadCartridge goodBytes = Except.ok goodCart
    ∧ goodCart.mapper = headerMapper goodBytes
    ∧ headerMapper goodBytes ∈ supportedMappers :=
  ⟨rfl, (loadCartridge_error_iff goodBytes).2 goodCart rfl⟩

/-! ### NESEmulator wrapper lemmas -/

theorem coreFramesN_eq : ∀ (n : Nat) (s : JsnesCore),
    coreFramesN n s
      = JsnesCore.mk (s.frames + n) s.held (s.frameLog ++ List.replicate n s.held) := by
  intro n
  induction n with
  | zero => intro s; simp [coreFramesN]
  | succ n ih =>
    intro s
    rw [coreFramesN, ih]
    unfold coreFrame
    simp only [JsnesCore.mk.injEq]
    refine ⟨by omega, trivial, ?_⟩
    rw [List.append_assoc, List.replicate_succ]
    rfl

/-- C8: for every wrapper state with a ROM loaded, every button and every
positive `durationFrames`, `NESEmulator.pressButton` succeeds and advances
emulation by exactly `durationFrames + 1` frames: `durationFrames` frames
run with the button held, then the button is released and exactly one more
frame runs with it released, leaving the button released. -/
theorem pressButton_frame_accounting (e : NESEmulator) (b : NESButton)
    (d : Nat) (_hd : 0 < d) (hrom : e.romLoaded = true) :
    ∃ e', NESEmulator.pressButton e b d = Except.ok e'
      ∧ e'.nes.frames = e.nes.frames + d + 1
      ∧ e'.nes.held (buttonIndex b) = false
      ∧ e'.nes.frameLog = e.nes.frameLog
          ++ List.replicate d (Function.update e.nes.held (buttonIndex b) true)
          ++ [Function.update e.nes.held (buttonIndex b) false]
      ∧ Function.update e.nes.held (buttonIndex b) true (buttonIndex b) = true := by
  unfold NESEmulator.pressButton
  rw [if_neg (by simp [hrom])]
  refine ⟨_, rfl, ?_, ?_, ?_, ?_⟩
  · simp [coreFrame, coreButtonUp, coreButtonDown, coreFramesN_eq]
  · simp [coreFrame, coreButtonUp, coreButtonDown, coreFramesN_eq,
      Function.update_same]
  · simp [coreFrame, coreButtonUp, coreButtonDown, coreFramesN_eq,
      Function.update_idem, List.append_assoc]
  · exact Function.update_same _ _ _

/-- Witness for C8 at a concrete wrapper state: ROM loaded, fresh core,
button A held for 2 frames. -/
theorem pressButton_frame_accounting_witness :
    ∃ e', NESEmulator.pressButton emuLoaded NESButton.A 2 = Except.ok e'
      ∧ e'.nes.frames = emuLoaded.nes.frames + 2 + 1
      ∧ e'.nes.held (buttonIndex NESButton.A) = false
      ∧ e'.nes.frameLog = emuLoaded.nes.frameLog
          ++ List.replicate 2
              (Function.update emuLoaded.nes.held (buttonIndex NESButton.A) true)
          ++ [Function.update emuLoaded.nes.held (buttonIndex NESButton.A) false]
      ∧ Function.update emuLoaded.nes.held (buttonIndex NESButton.A) true
          (buttonIndex NESButton.A) = true :=
  pressButton_frame_accounting emuLoaded NESButton.A 2 (by decide) rfl

/-- C9: when no ROM is loaded, every NESEmulator session operation other
than loading — pressButton, doFrame and getScreenAsBase64 — fails
immediately with the `No ROM loaded` error without touching the core, and
the HTTP /api/tool endpoint rejects every tool except load_rom with status
400 in that state. -/
theorem no_rom_loaded_guard (e : NESEmulator) (b : NESButton) (d : Nat)
    (tool : Option String) (p : ApiParams)
    (hrom : e.romLoaded = false) (htool : tool ≠ some loadRomName) :
    NESEmulator.pressButton e b d = Except.error noRomMsg
    ∧ NESEmulator.doFrame e = Except.error noRomMsg
    ∧ NESEmulator.getScreenAsBase64 e = Except.error noRomMsg
    ∧ (apiToolHandler e tool p).status = 400 := by
  refine ⟨?_, ?_, ?_, ?_⟩
  · unfold NESEmulator.pressButton
    rw [if_pos hrom]
  · unfold NESEmulator.doFrame
    rw [if_pos hrom]
  · unfold NESEmulator.getScreenAsBase64
    rw [if_pos hrom]
  · cases tool with
    | none => rfl
    | some t =>
      have hun : apiToolHandler e (some t) p
          = if t.isEmpty = true then ApiResult.err 400 toolRequiredMsg
            else if e.romLoaded = false ∧ t ≠ loadRomName then ApiResult.err 400 noRomMsg
            else apiDispatch e t p := rfl
      rw [hun]
      by_cases he : t.isEmpty = true
      · rw [if_pos he]
        rfl
      · rw [if_neg he, if_pos ⟨hrom, fun hl => htool (by rw [hl])⟩]
        rfl

/-- Witness for C9 at a concrete state: no ROM loaded, tool get_screen. -/
theorem no_rom_loaded_guard_witness :
    NESEmulator.pressButton emuNoRom NESButton.A 25 = Except.error noRomMsg
    ∧ NESEmulator.doFrame emuNoRom = Except.error noRomMsg
    ∧ NESEmulator.getScreenAsBase64 emuNoRom = Except.error noRomMsg
    ∧ (apiToolHandler emuNoRom (some ("get_screen")) params0).status = 400 :=
  no_rom_loaded_guard emuNoRom NESButton.A 25 (some ("get_screen")) params0 rfl
    (by decide)
